import Mathlib

set_option maxRecDepth 4000

/-!
Verification development for the biometric attendance core of the repository:
the block-wise SSIM image scorer and best-match matcher of
`public/fingerprint/app.js`, and the attendance check-in/check-out state
machine of `src/pages/AttendancePage.tsx`, the shared `markAttendance`
helper, and `src/pages/ShiftsManagement.tsx`'s `markAttendanceForEmployeeId`.

JavaScript numbers are modelled exactly: a value is a rational (idealised
finite double), `NaN`, or a signed infinity.  Division follows JS semantics
(`0/0 = NaN`, `x/0 = ±Infinity` for `x ≠ 0`), comparisons with `NaN` are
false, and an out-of-bounds typed-array read (`undefined`) contaminates
arithmetic exactly like `NaN` does.
-/

/-- A JavaScript number: a finite value (idealised as an exact rational),
`NaN`, or an infinity (`inf true` is `+∞`, `inf false` is `-∞`). -/
inductive JSVal where
  | num : ℚ → JSVal
  | nan : JSVal
  | inf : Bool → JSVal
deriving DecidableEq

/-- JS `+` on numbers. -/
def jsAdd : JSVal → JSVal → JSVal
  | .nan, _ => .nan
  | .num a, .num b => .num (a + b)
  | .num _, .nan => .nan
  | .num _, .inf s => .inf s
  | .inf _, .nan => .nan
  | .inf s, .num _ => .inf s
  | .inf s, .inf t => if s = t then .inf s else .nan

/-- JS `-` on numbers. -/
def jsSub : JSVal → JSVal → JSVal
  | .nan, _ => .nan
  | .num a, .num b => .num (a - b)
  | .num _, .nan => .nan
  | .num _, .inf s => .inf !s
  | .inf _, .nan => .nan
  | .inf s, .num _ => .inf s
  | .inf s, .inf t => if s = t then .nan else .inf s

/-- JS `*` on numbers. -/
def jsMul : JSVal → JSVal → JSVal
  | .nan, _ => .nan
  | .num a, .num b => .num (a * b)
  | .num _, .nan => .nan
  | .num a, .inf s => if a = 0 then .nan else .inf (s = decide (0 < a))
  | .inf _, .nan => .nan
  | .inf s, .num b => if b = 0 then .nan else .inf (s = decide (0 < b))
  | .inf s, .inf t => .inf (s = t)

/-- JS `/` on numbers: `0/0` is `NaN`, `x/0` is a signed infinity. -/
def jsDiv : JSVal → JSVal → JSVal
  | .nan, _ => .nan
  | .num a, .num b =>
      if b = 0 then (if a = 0 then .nan else .inf (decide (0 < a)))
      else .num (a / b)
  | .num _, .nan => .nan
  | .num _, .inf _ => .num 0
  | .inf _, .nan => .nan
  | .inf s, .num b => if b < 0 then .inf !s else .inf s
  | .inf _, .inf _ => .nan

/-- JS `>`: any comparison involving `NaN` is false. -/
def jsGt : JSVal → JSVal → Bool
  | .nan, _ => false
  | .num a, .num b => decide (b < a)
  | .num _, .nan => false
  | .num _, .inf s => !s
  | .inf _, .nan => false
  | .inf s, .num _ => s
  | .inf s, .inf t => s && !t

/-- JS `>=`: any comparison involving `NaN` is false. -/
def jsGe : JSVal → JSVal → Bool
  | .nan, _ => false
  | .num a, .num b => decide (b ≤ a)
  | .num _, .nan => false
  | .num _, .inf s => !s
  | .inf _, .nan => false
  | .inf s, .num _ => s
  | .inf s, .inf t => s || !t

/-- An `ImageData` object as produced by `canvas.getContext` in
`base64ToImageData`: a width, a height and the flattened RGBA byte array
(4 entries per pixel; the code only ever reads channel 0). -/
structure ImageData where
  width : ℕ
  height : ℕ
  data : List ℚ
deriving DecidableEq

/-- A typed-array read `data[idx]`: in bounds it yields the stored number,
out of bounds it yields `undefined`, which behaves as `NaN` in every
arithmetic operation performed on it by `computeSSIM`. -/
def pixel (d : List ℚ) (idx : ℕ) : JSVal :=
  match d.get? idx with
  | some v => .num v
  | none => .nan

/-- Summation of a list of JS numbers by a JS accumulator initialised to 0,
exactly as the `mu1 += I1`-style loops of `getBlockStats` do. -/
def sumJS (l : List JSVal) : JSVal := l.foldl jsAdd (.num 0)

/-- Stabilising constant `C1 = 6.5025` from `computeSSIM`. -/
def C1 : ℚ := 65025 / 10000

/-- Stabilising constant `C2 = 58.5225` from `computeSSIM`. -/
def C2 : ℚ := 585225 / 10000

/-- The block size `windowSize = 8` of `computeSSIM`. -/
def windowSize : ℕ := 8

/-- The flattened-array indices visited by the two nested loops
`for (j = y; j < y + windowSize && j < h; j++)` /
`for (i = x; i < x + windowSize && i < w; i++)` of `getBlockStats`:
index `(j * w + i) * 4` for each pixel of the clipped block at `(x, y)`. -/
def blockIndices (w h x y : ℕ) : List ℕ :=
  (List.range (min (y + windowSize) h - y)).flatMap fun dj =>
    (List.range (min (x + windowSize) w - x)).map fun di =>
      ((y + dj) * w + (x + di)) * 4

/-- The body of `getBlockStats(x, y)` from `computeSSIM`: means, variances
and covariance of the clipped block, combined by the per-block SSIM formula.
`N` counts the pixels of the block; the variance denominators are `N - 1`
with no special case, so a one-pixel block computes `0 / 0 = NaN`. -/
def getBlockStats (data1 data2 : List ℚ) (w h x y : ℕ) : JSVal :=
  let idxs := blockIndices w h x y
  let N : ℚ := idxs.length
  let mu1 := jsDiv (sumJS (idxs.map (pixel data1))) (.num N)
  let mu2 := jsDiv (sumJS (idxs.map (pixel data2))) (.num N)
  let sigma1Sq := jsDiv
    (sumJS (idxs.map fun i =>
      jsMul (jsSub (pixel data1 i) mu1) (jsSub (pixel data1 i) mu1)))
    (.num (N - 1))
  let sigma2Sq := jsDiv
    (sumJS (idxs.map fun i =>
      jsMul (jsSub (pixel data2 i) mu2) (jsSub (pixel data2 i) mu2)))
    (.num (N - 1))
  let sigma12 := jsDiv
    (sumJS (idxs.map fun i =>
      jsMul (jsSub (pixel data1 i) mu1) (jsSub (pixel data2 i) mu2)))
    (.num (N - 1))
  let numerator := jsMul
    (jsAdd (jsMul (jsMul (.num 2) mu1) mu2) (.num C1))
    (jsAdd (jsMul (.num 2) sigma12) (.num C2))
  let denominator := jsMul
    (jsAdd (jsAdd (jsMul mu1 mu1) (jsMul mu2 mu2)) (.num C1))
    (jsAdd (jsAdd sigma1Sq sigma2Sq) (.num C2))
  jsDiv numerator denominator

/-- The block origins visited by `for (y = 0; y < h; y += windowSize)`:
multiples of 8 below the bound. -/
def blockStarts (limit : ℕ) : List ℕ :=
  (List.range ((limit + windowSize - 1) / windowSize)).map (· * windowSize)

/-- The function `computeSSIM(imgData1, imgData2)`: the mean of `getBlockStats` over all
blocks.  The pixel grid is taken from `imgData1` alone — the width and
height of `imgData2` are never consulted — and with zero blocks the result
is `0 / 0 = NaN`. -/
def computeSSIM (imgData1 imgData2 : ImageData) : JSVal :=
  let w := imgData1.width
  let h := imgData1.height
  let blocks := (blockStarts h).flatMap fun y =>
    (blockStarts w).map fun x => (x, y)
  let total := sumJS (blocks.map fun b =>
    getBlockStats imgData1.data imgData2.data w h b.1 b.2)
  jsDiv total (.num blocks.length)

/-- An entry of the `employeeList` roster received by the scanner page:
only the identity and the enrolled template image matter to the matcher. -/
structure Employee where
  id : ℕ
  biometric_data : ImageData
deriving DecidableEq

/-- The message posted by the attendance branch of `onSamplesAcquired`:
either `status: "match"` with the best employee (and its score, tracked in
`bestMatch`), or `status: "no_match"` (which carries no score). -/
inductive MatchResult where
  | matched : Employee → JSVal → MatchResult
  | noMatch : MatchResult
deriving DecidableEq

/-- The acceptance threshold `THRESHOLD = 0.36` of `onSamplesAcquired`. -/
def THRESHOLD : ℚ := 36 / 100

/-- The matching loop of `onSamplesAcquired`: `bestMatch` starts `null`,
and each employee replaces it iff `!bestMatch || score > bestMatch.score`. -/
def bestMatchLoop (capture : ImageData) :
    List Employee → Option (Employee × JSVal) → Option (Employee × JSVal)
  | [], best => best
  | emp :: rest, best =>
      let score := computeSSIM capture emp.biometric_data
      bestMatchLoop capture rest
        (match best with
         | none => some (emp, score)
         | some b => if jsGt score b.2 then some (emp, score) else best)

/-- The decision of the attendance branch: run the loop, then post `match`
iff `bestMatch && bestMatch.score >= THRESHOLD`, else `no_match`. -/
def matchCapture (capture : ImageData) (roster : List Employee) : MatchResult :=
  match bestMatchLoop capture roster none with
  | some b => if jsGe b.2 (.num THRESHOLD) then .matched b.1 b.2 else .noMatch
  | none => .noMatch

/-- The attendance branch of `onSamplesAcquired` including its guard
`mode === "attendance" && employeeList.length > 0`: with an empty roster the
branch is not entered and no result message is posted at all (`none`). -/
def onSamplesAcquiredAttendance (capture : ImageData)
    (roster : List Employee) : Option MatchResult :=
  if roster.length > 0 then some (matchCapture capture roster) else none

/-! Helper lemmas about the JS arithmetic on finite values. -/

theorem jsAdd_num (a b : ℚ) : jsAdd (.num a) (.num b) = .num (a + b) := rfl

theorem jsSub_num (a b : ℚ) : jsSub (.num a) (.num b) = .num (a - b) := rfl

theorem jsMul_num (a b : ℚ) : jsMul (.num a) (.num b) = .num (a * b) := rfl

theorem jsDiv_num_of_ne (a b : ℚ) (hb : b ≠ 0) :
    jsDiv (.num a) (.num b) = .num (a / b) := by
  simp [jsDiv, hb]

theorem foldl_jsAdd_num {α : Type} (f : α → ℚ) (l : List α) (a : ℚ) :
    (l.map fun i => JSVal.num (f i)).foldl jsAdd (.num a) =
      .num (a + (l.map f).sum) := by
  induction l generalizing a with
  | nil => simp [sumJS]
  | cons hd tl ih => simp [ih, jsAdd, add_assoc]

theorem sumJS_num {α : Type} (f : α → ℚ) (l : List α) :
    sumJS (l.map fun i => JSVal.num (f i)) = .num ((l.map f).sum) := by
  simp [sumJS, foldl_jsAdd_num]

theorem pixel_of_lt (d : List ℚ) (i : ℕ) (h : i < d.length) :
    pixel d i = .num (d.getD i 0) := by
  unfold pixel
  cases hg : d.get? i with
  | none => exact absurd (List.get?_eq_none.mp hg) (Nat.not_le.mpr h)
  | some v =>
      simp [List.getD_eq_getElem?_getD, ← List.get?_eq_getElem?, hg]

/-! Structure of the block index list. -/

theorem sum_map_const_nat {α : Type} (l : List α) (c : ℕ) :
    (l.map fun _ => c).sum = l.length * c := by
  induction l with
  | nil => simp
  | cons hd tl ih => simp [ih, Nat.succ_mul, Nat.add_comm]

theorem length_blockIndices (w h x y : ℕ) :
    (blockIndices w h x y).length =
      (min (y + windowSize) h - y) * (min (x + windowSize) w - x) := by
  simp only [blockIndices, List.length_flatMap, Function.comp_def,
    List.length_map, List.length_range]
  rw [sum_map_const_nat, List.length_range]

theorem mem_blockIndices {w h x y i : ℕ}
    (hi : i ∈ blockIndices w h x y) : i < 4 * (w * h) := by
  simp only [blockIndices, List.mem_flatMap, List.mem_map, List.mem_range] at hi
  obtain ⟨dj, hdj, di, hdi, rfl⟩ := hi
  have hj : y + dj < h := by omega
  have hi2 : x + di < w := by omega
  have h1 : (y + dj) * w + (x + di) < h * w := by
    calc (y + dj) * w + (x + di) < (y + dj) * w + w := by omega
    _ = ((y + dj) + 1) * w := by ring
    _ ≤ h * w := Nat.mul_le_mul_right w hj
  calc ((y + dj) * w + (x + di)) * 4 < (h * w) * 4 := by omega
  _ = 4 * (w * h) := by ring

theorem mem_blockStarts {L x : ℕ} (h : x ∈ blockStarts L) :
    x < L ∧ x % 8 = 0 := by
  simp only [blockStarts, windowSize, List.mem_map, List.mem_range] at h
  obtain ⟨k, hk, rfl⟩ := h
  have h1 : (k + 1) * 8 ≤ ((L + 8 - 1) / 8) * 8 := Nat.mul_le_mul_right 8 hk
  have h2 : ((L + 8 - 1) / 8) * 8 ≤ L + 8 - 1 := Nat.div_mul_le_self _ 8
  omega

theorem two_le_length_blockIndices {w h x y : ℕ}
    (hx : x < w) (hxm : x % 8 = 0) (hy : y < h) (hym : y % 8 = 0)
    (hdeg : ¬(w % 8 = 1 ∧ h % 8 = 1)) :
    2 ≤ (blockIndices w h x y).length := by
  rw [length_blockIndices]
  have hr : 1 ≤ min (y + windowSize) h - y := by simp [windowSize]; omega
  have hc : 1 ≤ min (x + windowSize) w - x := by simp [windowSize]; omega
  have hrc : 2 ≤ min (y + windowSize) h - y ∨ 2 ≤ min (x + windowSize) w - x := by
    simp only [windowSize]
    omega
  rcases hrc with h2 | h2
  · calc 2 = 2 * 1 := rfl
    _ ≤ (min (y + windowSize) h - y) * (min (x + windowSize) w - x) :=
        Nat.mul_le_mul h2 hc
  · calc 2 = 1 * 2 := rfl
    _ ≤ (min (y + windowSize) h - y) * (min (x + windowSize) w - x) :=
        Nat.mul_le_mul hr h2

theorem getBlockStats_self (d : List ℚ) (w h x y : ℕ)
    (hin : ∀ i ∈ blockIndices w h x y, i < d.length)
    (hN : 2 ≤ (blockIndices w h x y).length) :
    getBlockStats d d w h x y = JSVal.num 1 := by
  have hNQ : (2 : ℚ) ≤ ((blockIndices w h x y).length : ℚ) := by
    exact_mod_cast hN
  have hN0 : ((blockIndices w h x y).length : ℚ) ≠ 0 := by linarith
  have hN1 : ((blockIndices w h x y).length : ℚ) - 1 ≠ 0 := by linarith
  have hmap1 : (blockIndices w h x y).map (pixel d) =
      (blockIndices w h x y).map (fun i => JSVal.num (d.getD i 0)) :=
    List.map_congr_left fun i hi => pixel_of_lt d i (hin i hi)
  have e2 : (blockIndices w h x y).map (fun i =>
        jsMul
          (jsSub (pixel d i)
            (.num (((blockIndices w h x y).map fun i => d.getD i 0).sum /
              ((blockIndices w h x y).length : ℚ))))
          (jsSub (pixel d i)
            (.num (((blockIndices w h x y).map fun i => d.getD i 0).sum /
              ((blockIndices w h x y).length : ℚ))))) =
      (blockIndices w h x y).map (fun i =>
        JSVal.num ((d.getD i 0 -
            ((blockIndices w h x y).map fun i => d.getD i 0).sum /
              ((blockIndices w h x y).length : ℚ)) *
          (d.getD i 0 -
            ((blockIndices w h x y).map fun i => d.getD i 0).sum /
              ((blockIndices w h x y).length : ℚ)))) :=
    List.map_congr_left fun i hi => by
      rw [pixel_of_lt d i (hin i hi), jsSub_num, jsMul_num]
  have hT : 0 ≤ ((blockIndices w h x y).map fun i =>
      (d.getD i 0 -
          ((blockIndices w h x y).map fun i => d.getD i 0).sum /
            ((blockIndices w h x y).length : ℚ)) *
        (d.getD i 0 -
          ((blockIndices w h x y).map fun i => d.getD i 0).sum /
            ((blockIndices w h x y).length : ℚ))).sum := by
    apply List.sum_nonneg
    intro q hq
    simp only [List.mem_map] at hq
    obtain ⟨i, hi, rfl⟩ := hq
    exact mul_self_nonneg _
  simp only [getBlockStats]
  rw [hmap1, sumJS_num, jsDiv_num_of_ne _ _ hN0, e2, sumJS_num,
    jsDiv_num_of_ne _ _ hN1]
  simp only [jsMul_num, jsAdd_num]
  have hσ : 0 ≤ (((blockIndices w h x y).map fun i =>
      (d.getD i 0 -
          ((blockIndices w h x y).map fun i => d.getD i 0).sum /
            ((blockIndices w h x y).length : ℚ)) *
        (d.getD i 0 -
          ((blockIndices w h x y).map fun i => d.getD i 0).sum /
            ((blockIndices w h x y).length : ℚ))).sum) /
      (((blockIndices w h x y).length : ℚ) - 1) :=
    div_nonneg hT (by linarith)
  set μ := ((blockIndices w h x y).map fun i => d.getD i 0).sum /
    ((blockIndices w h x y).length : ℚ) with hμ
  set σ := (((blockIndices w h x y).map fun i =>
      (d.getD i 0 - μ) * (d.getD i 0 - μ)).sum) /
    (((blockIndices w h x y).length : ℚ) - 1) with hσdef
  have hP : 0 < (2 * μ * μ + C1) * (2 * σ + C2) := by
    have h1 : (0 : ℚ) < 2 * μ * μ + C1 := by
      have := mul_self_nonneg μ
      have hc : (0 : ℚ) < C1 := by norm_num [C1]
      nlinarith
    have h2 : (0 : ℚ) < 2 * σ + C2 := by
      have hc : (0 : ℚ) < C2 := by norm_num [C2]
      linarith
    exact mul_pos h1 h2
  have hQP : (μ * μ + μ * μ + C1) * (σ + σ + C2) =
      (2 * μ * μ + C1) * (2 * σ + C2) := by ring
  rw [hQP, jsDiv_num_of_ne _ _ (ne_of_gt hP), div_self (ne_of_gt hP)]


theorem sum_map_one_q {α : Type} (l : List α) :
    (l.map fun _ => (1 : ℚ)).sum = (l.length : ℚ) := by
  induction l with
  | nil => simp
  | cons hd tl ih => simp [ih, add_comm]

theorem length_blockStarts (L : ℕ) :
    (blockStarts L).length = (L + windowSize - 1) / windowSize := by
  simp [blockStarts]

theorem computeSSIM_self (A : ImageData) (hw : 1 ≤ A.width) (hh : 1 ≤ A.height)
    (hdata : 4 * (A.width * A.height) ≤ A.data.length)
    (hdeg : ¬(A.width % 8 = 1 ∧ A.height % 8 = 1)) :
    computeSSIM A A = JSVal.num 1 := by
  simp only [computeSSIM]
  have hblocks : ((blockStarts A.height).flatMap fun y =>
        (blockStarts A.width).map fun x => (x, y)).map
          (fun b => getBlockStats A.data A.data A.width A.height b.1 b.2) =
      ((blockStarts A.height).flatMap fun y =>
        (blockStarts A.width).map fun x => (x, y)).map
          (fun b => JSVal.num ((fun _ => (1 : ℚ)) b)) := by
    apply List.map_congr_left
    intro b hb
    simp only [List.mem_flatMap, List.mem_map] at hb
    obtain ⟨y, hy, x, hx, rfl⟩ := hb
    obtain ⟨hxw, hxm⟩ := mem_blockStarts hx
    obtain ⟨hyh, hym⟩ := mem_blockStarts hy
    exact getBlockStats_self A.data A.width A.height x y
      (fun i hi => lt_of_lt_of_le (mem_blockIndices hi) hdata)
      (two_le_length_blockIndices hxw hxm hyh hym hdeg)
  rw [hblocks, sumJS_num, sum_map_one_q]
  have hlen : 1 ≤ ((blockStarts A.height).flatMap fun y =>
      (blockStarts A.width).map fun x => (x, y)).length := by
    simp only [List.length_flatMap, Function.comp_def, List.length_map]
    rw [sum_map_const_nat]
    have h1 : 1 ≤ (blockStarts A.height).length := by
      rw [length_blockStarts]; simp only [windowSize]; omega
    have h2 : 1 ≤ (blockStarts A.width).length := by
      rw [length_blockStarts]; simp only [windowSize]; omega
    calc 1 = 1 * 1 := rfl
    _ ≤ (blockStarts A.height).length * (blockStarts A.width).length :=
      Nat.mul_le_mul h1 h2
  have hne : (((blockStarts A.height).flatMap fun y =>
      (blockStarts A.width).map fun x => (x, y)).length : ℚ) ≠ 0 :=
    Nat.cast_ne_zero.mpr (by omega)
  rw [jsDiv_num_of_ne _ _ hne, div_self hne]

theorem jsGt_num (a b : ℚ) : jsGt (.num a) (.num b) = decide (b < a) := rfl

theorem jsGe_num (a b : ℚ) : jsGe (.num a) (.num b) = decide (b ≤ a) := rfl

theorem jsGt_nan_right (v : JSVal) : jsGt v .nan = false := by
  cases v <;> rfl

theorem bestMatchLoop_nan (capture : ImageData) (l : List Employee)
    (b : Employee) :
    bestMatchLoop capture l (some (b, JSVal.nan)) = some (b, JSVal.nan) := by
  induction l with
  | nil => rfl
  | cons emp rest ih =>
      simp only [bestMatchLoop, jsGt_nan_right, if_false]
      exact ih

theorem bestMatchLoop_argmax (capture : ImageData) (q : Employee → ℚ)
    (l : List Employee) (acc : Option Employee)
    (hq : ∀ emp ∈ l, computeSSIM capture emp.biometric_data = .num (q emp)) :
    bestMatchLoop capture l (acc.map fun b => (b, JSVal.num (q b))) =
      (l.foldl (List.argAux fun b c => q c < q b) acc).map
        fun b => (b, JSVal.num (q b)) := by
  induction l generalizing acc with
  | nil => rfl
  | cons emp rest ih =>
      have hrest : ∀ e ∈ rest, computeSSIM capture e.biometric_data = .num (q e) :=
        fun e he => hq e (List.mem_cons_of_mem _ he)
      simp only [bestMatchLoop, List.foldl_cons]
      rw [hq emp (List.mem_cons_self _ _)]
      cases acc with
      | none =>
          have harg : List.argAux (fun b c => q c < q b) none emp = some emp := rfl
          rw [harg]
          exact ih (some emp) hrest
      | some b =>
          have harg : List.argAux (fun b c => q c < q b) (some b) emp =
              if q b < q emp then some emp else some b := rfl
          rw [harg]
          simp only [Option.map_some', jsGt_num, decide_eq_true_eq]
          by_cases hlt : q b < q emp
          · rw [if_pos hlt, if_pos hlt]
            simpa using ih (some emp) hrest
          · rw [if_neg hlt, if_neg hlt]
            simpa using ih (some b) hrest

theorem matchCapture_argmax (capture : ImageData) (roster : List Employee)
    (q : Employee → ℚ)
    (hq : ∀ emp ∈ roster, computeSSIM capture emp.biometric_data = .num (q emp)) :
    matchCapture capture roster =
      match List.argmax q roster with
      | none => MatchResult.noMatch
      | some e => if THRESHOLD ≤ q e then MatchResult.matched e (JSVal.num (q e))
                  else MatchResult.noMatch := by
  have h := bestMatchLoop_argmax capture q roster none hq
  rw [Option.map_none'] at h
  have hdef : List.argmax q roster =
      roster.foldl (List.argAux fun b c => q c < q b) none := rfl
  unfold matchCapture
  rw [h, ← hdef]
  cases harg : List.argmax q roster with
  | none => rfl
  | some e =>
      simp only [Option.map_some', jsGe_num, decide_eq_true_eq]

/-!
The attendance session manager.  Rows of the `attendances` table are
modelled as records; times are seconds since the epoch in the deployment's
reference timezone.  `check_out = none` is the SQL `check_out IS NULL`
that both the check-in guard and the check-out lookup filter on.
-/

/-- The `status` column written by the attendance code. -/
inductive RecStatus where
  | checked_in
  | checked_out
deriving DecidableEq

/-- One row of the `attendances` table. -/
structure AttendanceRecord where
  id : ℕ
  employee_id : ℕ
  check_in : ℕ
  check_out : Option ℕ
  status : RecStatus
  total_hours : Option ℚ
deriving DecidableEq

/-- The shared `attendances` storage plus the id sequence used for
freshly inserted rows. -/
structure AttendanceDB where
  records : List AttendanceRecord
  nextId : ℕ
deriving DecidableEq

/-- The empty storage: no sessions exist. -/
def emptyDB : AttendanceDB := ⟨[], 0⟩

/-- The calendar-day bucket of a timestamp (day length 86400 seconds in
the fixed reference timezone). -/
def dayKey (t : ℕ) : ℕ := t / 86400

/-- Midnight of the day of `t`, as `startOfDayIso` computes it. -/
def startOfDay (t : ℕ) : ℕ := dayKey t * 86400

/-- The rows matched by
`.eq("employee_id", e).is("check_out", null)` — note: *not* restricted
to any day. -/
def openRecords (db : AttendanceDB) (e : ℕ) : List AttendanceRecord :=
  db.records.filter fun r => r.employee_id == e && r.check_out.isNone

/-- Outcome of the check-in branch of `AttendancePage`'s handler and of
`markAttendance(employeeId, "check-in")` (the two are identical). -/
inductive CheckInResult where
  | checkedIn
  | alreadyCheckedIn
deriving DecidableEq

/-- The check-in branch: look for an open row of the employee with
`maybeSingle()` — which yields a row exactly when *one* open row matches,
since with several rows `maybeSingle` returns an error whose `data` is
`null`, and the code destructures `data` only — and reject with
"Already checked in" if a row came back; otherwise insert a fresh row
with `check_in = now` and status `checked_in`. -/
def checkIn (db : AttendanceDB) (e now : ℕ) : CheckInResult × AttendanceDB :=
  if (openRecords db e).length = 1 then
    (.alreadyCheckedIn, db)
  else
    (.checkedIn,
      { records := db.records ++ [⟨db.nextId, e, now, none, .checked_in, none⟩],
        nextId := db.nextId + 1 })

/-- Outcome of the check-out branch of `AttendancePage`'s handler and of
`markAttendance(employeeId, "check-out")`. -/
inductive CheckOutResult where
  | checkedOut : ℚ → CheckOutResult
  | noActiveSession
deriving DecidableEq

/-- The row produced by
`.order("check_in", { ascending: false }).limit(1).maybeSingle()` over the
open rows of the employee: the open row with the greatest `check_in`
(the first such row in storage order on ties). -/
def latestOpen (db : AttendanceDB) (e : ℕ) : Option AttendanceRecord :=
  (openRecords db e).foldl
    (fun acc r =>
      match acc with
      | none => some r
      | some a => if a.check_in < r.check_in then some r else acc)
    none

/-- The dayjs call `checkOutTime.diff(checkInTime, "minute")`: the number of whole
minutes between the two times, truncated toward zero. -/
def minutesDiff (later earlier : ℕ) : ℤ :=
  if earlier ≤ later then ((later - earlier) / 60 : ℕ)
  else -(((earlier - later) / 60 : ℕ) : ℤ)

/-- The call `Number(x).toFixed(2)` on an exact value: round to two decimal places,
ties toward the larger result, exactly the ECMAScript `toFixed` rule. -/
def round2 (q : ℚ) : ℚ := (⌊q * 100 + 1 / 2⌋ : ℚ) / 100

/-- The check-out branch: fetch the latest open row of the employee
(any day); fail with "No active check-in session" if there is none;
otherwise store `check_out = now`, status `checked_out` and
`total_hours = (minutes diff) / 60` rounded via `toFixed(2)`. -/
def checkOut (db : AttendanceDB) (e now : ℕ) : CheckOutResult × AttendanceDB :=
  match latestOpen db e with
  | none => (.noActiveSession, db)
  | some last =>
      let total := round2 ((minutesDiff now last.check_in : ℚ) / 60)
      (.checkedOut total,
        { db with
            records := db.records.map fun r =>
              if r.id = last.id then
                { r with check_out := some now, status := .checked_out,
                         total_hours := some total }
              else r })

/-- Outcome of `ShiftsManagement`'s `markAttendanceForEmployeeId`. -/
inductive ToggleResult where
  | checkedIn
  | checkedOut : ℚ → ToggleResult
  | alreadyCheckedOut
  | queryError
deriving DecidableEq

/-- The rows matched by the toggle's today query
`.eq("employee_id", e).gte("check_in", start).lt("check_in", end)`. -/
def todayRecords (db : AttendanceDB) (e now : ℕ) : List AttendanceRecord :=
  db.records.filter fun r =>
    r.employee_id == e &&
    decide (startOfDay now ≤ r.check_in) &&
    decide (r.check_in < startOfDay now + 86400)

/-- The function `markAttendanceForEmployeeId` of `ShiftsManagement`: one entry point
toggling on the state of today's record.  `maybeSingle()` errors when the
query returns more than one row (`recErr` branch: no mutation).  With no
row today it *checks in*; with an open row it checks out, computing
`total_hours` from the exact millisecond difference over 3600000; with a
closed row it reports "Already checked out". -/
def markAttendanceForEmployeeId (db : AttendanceDB) (e now : ℕ) :
    ToggleResult × AttendanceDB :=
  match todayRecords db e now with
  | [] =>
      (.checkedIn,
        { records := db.records ++ [⟨db.nextId, e, now, none, .checked_in, none⟩],
          nextId := db.nextId + 1 })
  | [rec] =>
      match rec.check_out with
      | none =>
          let total := round2 (((now : ℚ) - (rec.check_in : ℚ)) / 3600)
          (.checkedOut total,
            { db with
                records := db.records.map fun r =>
                  if r.id = rec.id then
                    { r with check_out := some now, status := .checked_out,
                             total_hours := some total }
                  else r })
      | some _ => (.alreadyCheckedOut, db)
  | _ => (.queryError, db)

/-- One request to the session manager as modelled for invariant traces:
a check-in or a check-out for an employee at a time. -/
inductive AttOp where
  | checkInOp : ℕ → ℕ → AttOp
  | checkOutOp : ℕ → ℕ → AttOp
deriving DecidableEq

/-- Apply one operation to the storage, discarding the reported outcome. -/
def applyOp (db : AttendanceDB) : AttOp → AttendanceDB
  | .checkInOp e now => (checkIn db e now).2
  | .checkOutOp e now => (checkOut db e now).2

/-- Run a sequence of operations from the initial (no-session) state. -/
def runOps (ops : List AttOp) : AttendanceDB := ops.foldl applyOp emptyDB

theorem length_filter_imp_le {α : Type} (p q : α → Bool) (l : List α)
    (h : ∀ a ∈ l, q a = true → p a = true) :
    (l.filter q).length ≤ (l.filter p).length := by
  induction l with
  | nil => simp
  | cons hd tl ih =>
      have htl : ∀ a ∈ tl, q a = true → p a = true :=
        fun a ha => h a (List.mem_cons_of_mem _ ha)
      by_cases hq : q hd = true
      · rw [List.filter_cons_of_pos hq, List.filter_cons_of_pos (h hd (List.mem_cons_self _ _) hq)]
        simpa using ih htl
      · rw [List.filter_cons_of_neg (by simpa using hq)]
        by_cases hp : p hd = true
        · rw [List.filter_cons_of_pos hp]
          exact le_trans (ih htl) (by simp)
        · rw [List.filter_cons_of_neg (by simpa using hp)]
          exact ih htl

theorem length_filter_map_le {α : Type} (f : α → α) (p : α → Bool) (l : List α)
    (h : ∀ a ∈ l, p (f a) = true → f a = a) :
    ((l.map f).filter p).length ≤ (l.filter p).length := by
  induction l with
  | nil => simp
  | cons hd tl ih =>
      have htl : ∀ a ∈ tl, p (f a) = true → f a = a :=
        fun a ha => h a (List.mem_cons_of_mem _ ha)
      simp only [List.map_cons]
      by_cases hq : p (f hd) = true
      · have heq : f hd = hd := h hd (List.mem_cons_self _ _) hq
        rw [List.filter_cons_of_pos hq, heq, List.filter_cons_of_pos (heq ▸ hq)]
        simpa using ih htl
      · rw [List.filter_cons_of_neg (by simpa using hq)]
        by_cases hp : p hd = true
        · rw [List.filter_cons_of_pos hp]
          exact le_trans (ih htl) (by simp)
        · rw [List.filter_cons_of_neg (by simpa using hp)]
          exact ih htl

/-- The global invariant actually enforced by the code: at most one open
row per employee, across *all* days. -/
def openLe1 (db : AttendanceDB) : Prop :=
  ∀ e, (openRecords db e).length ≤ 1

theorem openLe1_empty : openLe1 emptyDB := by
  intro e
  simp [openLe1, openRecords, emptyDB]

theorem openLe1_checkIn (db : AttendanceDB) (e now : ℕ) (h : openLe1 db) :
    openLe1 (checkIn db e now).2 := by
  intro e2
  unfold checkIn
  by_cases hg : (openRecords db e).length = 1
  · simpa [hg] using h e2
  · simp only [hg, if_false]
    simp only [openRecords, List.filter_append]
    by_cases he : e = e2
    · subst he
      have h0 : (openRecords db e).length = 0 := by
        have := h e
        omega
      simp only [openRecords] at h0
      simp [h0, List.length_eq_zero.mp h0]
    · have : (([⟨db.nextId, e, now, none, RecStatus.checked_in, none⟩] :
          List AttendanceRecord).filter fun r =>
            r.employee_id == e2 && r.check_out.isNone) = [] := by
        have hbe : (e == e2) = false := by simpa using he
        simp [List.filter, hbe]
      rw [this]
      simpa [openRecords] using h e2

theorem openLe1_checkOut (db : AttendanceDB) (e now : ℕ) (h : openLe1 db) :
    openLe1 (checkOut db e now).2 := by
  intro e2
  unfold checkOut
  cases hl : latestOpen db e with
  | none => simpa using h e2
  | some last =>
      simp only
      refine le_trans ?_ (h e2)
      simp only [openRecords]
      apply length_filter_map_le
      intro r hr hpr
      by_cases hid : r.id = last.id
      · exfalso
        simp [hid] at hpr
      · simp [hid]

theorem openLe1_applyOp (db : AttendanceDB) (op : AttOp) (h : openLe1 db) :
    openLe1 (applyOp db op) := by
  cases op with
  | checkInOp e now => exact openLe1_checkIn db e now h
  | checkOutOp e now => exact openLe1_checkOut db e now h

theorem openLe1_foldl (ops : List AttOp) (db : AttendanceDB) (h : openLe1 db) :
    openLe1 (ops.foldl applyOp db) := by
  induction ops generalizing db with
  | nil => exact h
  | cons op rest ih => exact ih _ (openLe1_applyOp db op h)

theorem openLe1_runOps (ops : List AttOp) : openLe1 (runOps ops) :=
  openLe1_foldl ops emptyDB openLe1_empty

/-- The rows that are open for employee `e` on day `d`. -/
def openOnDay (db : AttendanceDB) (e d : ℕ) : List AttendanceRecord :=
  db.records.filter fun r =>
    r.employee_id == e && r.check_out.isNone && dayKey r.check_in == d

theorem openOnDay_le_openRecords (db : AttendanceDB) (e d : ℕ) :
    (openOnDay db e d).length ≤ (openRecords db e).length := by
  apply length_filter_imp_le
  intro r hr hq
  simp only [Bool.and_eq_true] at hq
  simp [hq.1.1, hq.1.2]

theorem checkIn_alreadyCheckedIn_iff (db : AttendanceDB) (e now : ℕ)
    (h : openLe1 db) :
    (checkIn db e now).1 = .alreadyCheckedIn ↔
      ∃ r ∈ db.records, r.employee_id = e ∧ r.check_out = none := by
  unfold checkIn
  by_cases hg : (openRecords db e).length = 1
  · simp only [hg, if_true]
    constructor
    · intro _
      have hne : openRecords db e ≠ [] := by
        intro hnil
        rw [hnil] at hg
        simp at hg
      obtain ⟨r, hrmem⟩ := List.exists_mem_of_ne_nil _ hne
      have hm := List.mem_filter.mp hrmem
      have hb := hm.2
      simp only [Bool.and_eq_true, beq_iff_eq, Option.isNone_iff_eq_none] at hb
      exact ⟨r, hm.1, hb.1, hb.2⟩
    · intro _
      trivial
  · simp only [hg, if_false]
    constructor
    · intro hcontra
      exact absurd hcontra (by simp)
    · intro ⟨r, hr, hre, hrc⟩
      exfalso
      have hrf : r ∈ openRecords db e := by
        apply List.mem_filter.mpr
        refine ⟨hr, ?_⟩
        simp [hre, hrc]
      have h1 : 1 ≤ (openRecords db e).length := by
        cases hor : openRecords db e with
        | nil => rw [hor] at hrf; simp at hrf
        | cons a tl => simp
      have h2 := h e
      omega

theorem checkIn_fail_no_mutation (db : AttendanceDB) (e now : ℕ)
    (h : (checkIn db e now).1 = .alreadyCheckedIn) :
    (checkIn db e now).2 = db := by
  unfold checkIn at h ⊢
  by_cases hg : (openRecords db e).length = 1
  · simp [hg]
  · simp [hg] at h

theorem checkIn_success_append (db : AttendanceDB) (e now : ℕ)
    (h : (checkIn db e now).1 = .checkedIn) :
    (checkIn db e now).2.records =
      db.records ++ [⟨db.nextId, e, now, none, .checked_in, none⟩] := by
  unfold checkIn at h ⊢
  by_cases hg : (openRecords db e).length = 1
  · simp [hg] at h
  · simp [hg]

theorem latestOpen_ne_none (l : List AttendanceRecord) (a : AttendanceRecord) :
    l.foldl
      (fun acc r =>
        match acc with
        | none => some r
        | some a => if a.check_in < r.check_in then some r else acc)
      (some a) ≠ none := by
  induction l generalizing a with
  | nil => simp
  | cons hd tl ih =>
      simp only [List.foldl_cons]
      by_cases hlt : a.check_in < hd.check_in
      · simpa [hlt] using ih hd
      · simpa [hlt] using ih a

theorem latestOpen_eq_none_iff (db : AttendanceDB) (e : ℕ) :
    latestOpen db e = none ↔ openRecords db e = [] := by
  unfold latestOpen
  cases hor : openRecords db e with
  | nil => simp
  | cons hd tl =>
      simp only [List.foldl_cons]
      constructor
      · intro hcontra
        exact absurd hcontra (latestOpen_ne_none tl hd)
      · intro hfalse
        cases hfalse

/-- Claim C1: from the initial no-session state, every sequence of
check-in and check-out operations leaves at most one OPEN attendance
session per `(personId, dayKey)` pair; each operation preserves this along
the trace.  The code in fact maintains the stronger invariant `openLe1`
(at most one open session per person across all days), from which the
per-day bound follows. -/
theorem c1_at_most_one_open_session_per_day (ops : List AttOp) (e d : ℕ) :
    (openOnDay (runOps ops) e d).length ≤ 1 :=
  le_trans (openOnDay_le_openRecords _ e d) (openLe1_runOps ops e)

/-- Claim C2 counterexample: with an open session from day 0 on record,
a check-in request on day 1 fails with AlreadyCheckedIn even though no
OPEN session exists for `(personId, dayKey(now))` — the code's guard is
not scoped to the day, so the "only if" direction of the claim is false. -/
theorem c2_counterexample :
    (checkIn (runOps [AttOp.checkInOp 7 0]) 7 86400).1 =
      CheckInResult.alreadyCheckedIn ∧
    (openOnDay (runOps [AttOp.checkInOp 7 0]) 7 (dayKey 86400)).length = 0 := by
  decide

/-- Claim C2 (amended): `checkIn(personId, now)` fails with
AlreadyCheckedIn iff an OPEN session exists for the person on *any* day
(not just `dayKey(now)`); on failure the storage is unchanged, and on
success exactly one new OPEN session with `check_in = now` is appended. -/
theorem c2_checkin_contract (ops : List AttOp) (e now : ℕ) :
    ((checkIn (runOps ops) e now).1 = .alreadyCheckedIn ↔
      ∃ r ∈ (runOps ops).records, r.employee_id = e ∧ r.check_out = none) ∧
    ((checkIn (runOps ops) e now).1 = .alreadyCheckedIn →
      (checkIn (runOps ops) e now).2 = runOps ops) ∧
    ((checkIn (runOps ops) e now).1 = .checkedIn →
      (checkIn (runOps ops) e now).2.records =
        (runOps ops).records ++
          [⟨(runOps ops).nextId, e, now, none, .checked_in, none⟩]) :=
  ⟨checkIn_alreadyCheckedIn_iff _ e now (openLe1_runOps ops),
   checkIn_fail_no_mutation _ e now,
   checkIn_success_append _ e now⟩

/-- Claim C3 counterexample: check-in at `t = 0`, check-out at `t = 100`
seconds.  The exact difference is `100 / 3600` hours, which rounds to
`0.03`; the code computes whole minutes first (`1` minute) and stores
`round2 (1 / 60) = 0.02`.  So `totalHours` is not the rounded exact
difference. -/
theorem c3_counterexample :
    (checkOut (runOps [AttOp.checkInOp 5 0]) 5 100).1 =
      CheckOutResult.checkedOut (2 / 100) ∧
    round2 ((100 : ℚ) / 3600) = 3 / 100 ∧
    (2 : ℚ) / 100 ≠ 3 / 100 := by
  refine ⟨?_, ?_, by norm_num⟩
  · have hdb : runOps [AttOp.checkInOp 5 0] =
        ⟨[⟨0, 5, 0, none, .checked_in, none⟩], 1⟩ := rfl
    rw [hdb]
    have hlo : latestOpen ⟨[⟨0, 5, 0, none, .checked_in, none⟩], 1⟩ 5 =
        some ⟨0, 5, 0, none, .checked_in, none⟩ := rfl
    unfold checkOut
    rw [hlo]
    have hmd : minutesDiff 100 0 = (1 : ℤ) := rfl
    simp only [hmd]
    have : round2 (((1 : ℤ) : ℚ) / 60) = 2 / 100 := by
      unfold round2
      rw [show (((1 : ℤ) : ℚ) / 60 * 100 + 1 / 2 : ℚ) = 13 / 6 by norm_num]
      rw [show ⌊(13 / 6 : ℚ)⌋ = 2 by
        rw [Int.floor_eq_iff]
        norm_num]
      norm_num
    rw [this]
  · unfold round2
    rw [show ((100 : ℚ) / 3600 * 100 + 1 / 2 : ℚ) = 59 / 18 by norm_num]
    rw [show ⌊(59 / 18 : ℚ)⌋ = 3 by
      rw [Int.floor_eq_iff]
      norm_num]
    norm_num

/-- Claim C3 (amended): from the initial state, check-in at `t1` followed
by check-out at `t2 ≥ t1` (same person) succeeds and yields a single
CLOSED session with `checkOutTime = t2` and
`totalHours = round2(truncatedWholeMinutes(t2 - t1) / 60)` — the whole
number of minutes between the times divided by 60 and rounded to two
decimals, not the rounded exact difference in hours. -/
theorem c3_checkin_checkout_contract (e t1 t2 : ℕ) (h : t1 ≤ t2) :
    (checkIn emptyDB e t1).1 = .checkedIn ∧
    (checkOut (checkIn emptyDB e t1).2 e t2).1 =
      .checkedOut (round2 ((((t2 - t1) / 60 : ℕ) : ℚ) / 60)) ∧
    (checkOut (checkIn emptyDB e t1).2 e t2).2.records =
      [⟨0, e, t1, some t2, .checked_out,
        some (round2 ((((t2 - t1) / 60 : ℕ) : ℚ) / 60))⟩] := by
  have h1 : checkIn emptyDB e t1 =
      (.checkedIn, ⟨[⟨0, e, t1, none, .checked_in, none⟩], 1⟩) := rfl
  refine ⟨by rw [h1], ?_, ?_⟩ <;> rw [h1]
  · have hlo : latestOpen ⟨[⟨0, e, t1, none, .checked_in, none⟩], 1⟩ e =
        some ⟨0, e, t1, none, .checked_in, none⟩ := by
      unfold latestOpen openRecords
      simp
    unfold checkOut
    rw [hlo]
    have hmd : minutesDiff t2 t1 = (((t2 - t1) / 60 : ℕ) : ℤ) := by
      unfold minutesDiff
      rw [if_pos h]
    simp only [hmd, Int.cast_natCast]
  · have hlo : latestOpen ⟨[⟨0, e, t1, none, .checked_in, none⟩], 1⟩ e =
        some ⟨0, e, t1, none, .checked_in, none⟩ := by
      unfold latestOpen openRecords
      simp
    unfold checkOut
    rw [hlo]
    have hmd : minutesDiff t2 t1 = (((t2 - t1) / 60 : ℕ) : ℤ) := by
      unfold minutesDiff
      rw [if_pos h]
    simp only [hmd, Int.cast_natCast]
    simp

/-- Witness for `c3_checkin_checkout_contract`: check-in at 0, check-out
at 3600 seconds: one whole hour, stored as exactly 1.00. -/
theorem c3_witness :
    (checkIn emptyDB 1 0).1 = .checkedIn ∧
    (checkOut (checkIn emptyDB 1 0).2 1 3600).1 =
      .checkedOut (round2 ((((3600 - 0) / 60 : ℕ) : ℚ) / 60)) ∧
    (checkOut (checkIn emptyDB 1 0).2 1 3600).2.records =
      [⟨0, 1, 0, some 3600, .checked_out,
        some (round2 ((((3600 - 0) / 60 : ℕ) : ℚ) / 60))⟩] :=
  c3_checkin_checkout_contract 1 0 3600 (by norm_num)

/-- Claim C4 counterexample: with an OPEN session from day 0 on record and
a check-out request on day 1, no OPEN session exists for
`(personId, dayKey(now))`, yet the code does *not* fail with
NoActiveSession — it closes the stale day-0 session (mutating it to
`check_out = some now`), because its lookup is not scoped to the day. -/
theorem c4_counterexample :
    (openOnDay (runOps [AttOp.checkInOp 3 0]) 3 (dayKey 90000)).length = 0 ∧
    (checkOut (runOps [AttOp.checkInOp 3 0]) 3 90000).1 ≠
      CheckOutResult.noActiveSession ∧
    ((checkOut (runOps [AttOp.checkInOp 3 0]) 3 90000).2.records.map
      fun r => r.check_out) = [some 90000] := by
  exact ⟨by decide, by decide, by decide⟩

/-- Claim C4 (amended): a check-out request for a person with no OPEN
session on *any* day fails with NoActiveSession and performs no mutation;
in particular it never creates a session (a check-out is never converted
into a check-in — only the separate `markAttendanceForEmployeeId` toggle
of `ShiftsManagement` turns a scan without a today-record into a
check-in). -/
theorem c4_checkout_rejection (db : AttendanceDB) (e now : ℕ)
    (h : ∀ r ∈ db.records, r.employee_id = e → r.check_out ≠ none) :
    (checkOut db e now).1 = .noActiveSession ∧ (checkOut db e now).2 = db := by
  have hnil : openRecords db e = [] := by
    apply List.filter_eq_nil_iff.mpr
    intro r hr
    simp only [Bool.and_eq_true, beq_iff_eq, Option.isNone_iff_eq_none, not_and]
    intro hre
    exact h r hr hre
  have hnone : latestOpen db e = none := (latestOpen_eq_none_iff db e).mpr hnil
  unfold checkOut
  rw [hnone]
  exact ⟨rfl, rfl⟩

/-- Witness for `c4_checkout_rejection`: a storage holding only a closed
session for the person rejects a further check-out and stays unchanged. -/
theorem c4_witness :
    (checkOut (runOps [AttOp.checkInOp 1 0, AttOp.checkOutOp 1 60]) 1 120).1 =
      CheckOutResult.noActiveSession ∧
    (checkOut (runOps [AttOp.checkInOp 1 0, AttOp.checkOutOp 1 60]) 1 120).2 =
      runOps [AttOp.checkInOp 1 0, AttOp.checkOutOp 1 60] :=
  c4_checkout_rejection (runOps [AttOp.checkInOp 1 0, AttOp.checkOutOp 1 60])
    1 120 (by decide)

theorem startOfDay_le_of_sameDay {s t : ℕ} (h : dayKey s = dayKey t) :
    startOfDay s ≤ t ∧ t < startOfDay s + 86400 := by
  unfold dayKey at h
  unfold startOfDay dayKey
  rw [h]
  have hdm := Nat.div_add_mod t 86400
  have hm : t % 86400 < 86400 := Nat.mod_lt _ (by norm_num)
  omega

/-- Claim C5 counterexample: in the explicit check-out implementations
(`markAttendance` of the shared helper / `AttendancePage`), after
[check-in, check-out] a further check-out fails with *NoActiveSession*
("No active check-in session"), not AlreadyCheckedOut — indeed the
outcome type of that code path has no already-checked-out variant at
all, because the closed row no longer matches the `check_out IS NULL`
lookup. -/
theorem c5_counterexample :
    (checkOut (runOps [AttOp.checkInOp 2 0, AttOp.checkOutOp 2 3600]) 2 7200).1 =
      CheckOutResult.noActiveSession := by
  decide

/-- Claim C5 (amended): the AlreadyCheckedOut rejection exists only in
`ShiftsManagement`'s single-entry toggle `markAttendanceForEmployeeId`:
scanning three times on one day checks in, checks out, and then reports
"Already checked out" with no further mutation; the explicit check-out
implementations reject the third request with NoActiveSession instead
(see the counterexample).  In both cases the rejection is typed and no
duplicate record or second closure is produced. -/
theorem c5_toggle_contract (e t1 t2 t3 : ℕ)
    (h2 : dayKey t2 = dayKey t1) (h3 : dayKey t3 = dayKey t1) :
    (markAttendanceForEmployeeId emptyDB e t1).1 = .checkedIn ∧
    (∃ q, (markAttendanceForEmployeeId
        (markAttendanceForEmployeeId emptyDB e t1).2 e t2).1 = .checkedOut q) ∧
    (markAttendanceForEmployeeId
        (markAttendanceForEmployeeId
          (markAttendanceForEmployeeId emptyDB e t1).2 e t2).2 e t3).1 =
      .alreadyCheckedOut ∧
    (markAttendanceForEmployeeId
        (markAttendanceForEmployeeId
          (markAttendanceForEmployeeId emptyDB e t1).2 e t2).2 e t3).2 =
      (markAttendanceForEmployeeId
        (markAttendanceForEmployeeId emptyDB e t1).2 e t2).2 := by
  obtain ⟨ha2, hb2⟩ := startOfDay_le_of_sameDay h2
  obtain ⟨ha3, hb3⟩ := startOfDay_le_of_sameDay h3
  have hs1 : markAttendanceForEmployeeId emptyDB e t1 =
      (.checkedIn, ⟨[⟨0, e, t1, none, .checked_in, none⟩], 1⟩) := rfl
  have htoday2 : todayRecords ⟨[⟨0, e, t1, none, .checked_in, none⟩], 1⟩ e t2 =
      [⟨0, e, t1, none, .checked_in, none⟩] := by
    unfold todayRecords
    simp [ha2, hb2]
  have hs2 : markAttendanceForEmployeeId
      ⟨[⟨0, e, t1, none, .checked_in, none⟩], 1⟩ e t2 =
      (.checkedOut (round2 (((t2 : ℚ) - (t1 : ℚ)) / 3600)),
        ⟨[⟨0, e, t1, some t2, .checked_out,
           some (round2 (((t2 : ℚ) - (t1 : ℚ)) / 3600))⟩], 1⟩) := by
    unfold markAttendanceForEmployeeId
    rw [htoday2]
    simp
  have htoday3 : todayRecords
      ⟨[⟨0, e, t1, some t2, .checked_out,
         some (round2 (((t2 : ℚ) - (t1 : ℚ)) / 3600))⟩], 1⟩ e t3 =
      [⟨0, e, t1, some t2, .checked_out,
        some (round2 (((t2 : ℚ) - (t1 : ℚ)) / 3600))⟩] := by
    unfold todayRecords
    simp [ha3, hb3]
  have hs3 : markAttendanceForEmployeeId
      ⟨[⟨0, e, t1, some t2, .checked_out,
         some (round2 (((t2 : ℚ) - (t1 : ℚ)) / 3600))⟩], 1⟩ e t3 =
      (.alreadyCheckedOut,
        ⟨[⟨0, e, t1, some t2, .checked_out,
           some (round2 (((t2 : ℚ) - (t1 : ℚ)) / 3600))⟩], 1⟩) := by
    unfold markAttendanceForEmployeeId
    rw [htoday3]
  refine ⟨?_, ?_, ?_, ?_⟩
  · rw [hs1]
  · rw [hs1]
    dsimp only
    rw [hs2]
    exact ⟨_, rfl⟩
  · rw [hs1]
    dsimp only
    rw [hs2]
    dsimp only
    rw [hs3]
  · rw [hs1]
    dsimp only
    rw [hs2]
    dsimp only
    rw [hs3]

/-- Witness for `c5_toggle_contract`: three same-day scans at 0s, 60s,
120s. -/
theorem c5_witness :
    (markAttendanceForEmployeeId emptyDB 1 0).1 = .checkedIn ∧
    (∃ q, (markAttendanceForEmployeeId
        (markAttendanceForEmployeeId emptyDB 1 0).2 1 60).1 = .checkedOut q) ∧
    (markAttendanceForEmployeeId
        (markAttendanceForEmployeeId
          (markAttendanceForEmployeeId emptyDB 1 0).2 1 60).2 1 120).1 =
      .alreadyCheckedOut ∧
    (markAttendanceForEmployeeId
        (markAttendanceForEmployeeId
          (markAttendanceForEmployeeId emptyDB 1 0).2 1 60).2 1 120).2 =
      (markAttendanceForEmployeeId
        (markAttendanceForEmployeeId emptyDB 1 0).2 1 60).2 :=
  c5_toggle_contract 1 0 60 120 (by decide) (by decide)

theorem jsDiv_nan_left (v : JSVal) : jsDiv .nan v = .nan := rfl

theorem jsAdd_nan_left (v : JSVal) : jsAdd .nan v = .nan := rfl

theorem jsAdd_nan_right (a : ℚ) : jsAdd (.num a) .nan = .nan := rfl

theorem jsMul_nan_right (a : ℚ) : jsMul (.num a) .nan = .nan := rfl

theorem sumJS_singleton (q : ℚ) : sumJS [JSVal.num q] = JSVal.num (0 + q) := rfl

/-- A block consisting of a single pixel: `N = 1`, so every variance
accumulator is exactly `0` and is divided by `N - 1 = 0`, giving
`0 / 0 = NaN`, which the SSIM formula then propagates to the whole
block value. -/
theorem getBlockStats_single (d1 d2 : List ℚ) (w h x y i : ℕ) (a b : ℚ)
    (hidx : blockIndices w h x y = [i])
    (h1 : d1.get? i = some a) (h2 : d2.get? i = some b) :
    getBlockStats d1 d2 w h x y = JSVal.nan := by
  have hp1 : pixel d1 i = .num a := by unfold pixel; rw [h1]
  have hp2 : pixel d2 i = .num b := by unfold pixel; rw [h2]
  unfold getBlockStats
  rw [hidx]
  simp only [List.map_cons, List.map_nil, List.length_cons, List.length_nil,
    hp1, hp2, Nat.zero_add, Nat.cast_one, sumJS_singleton]
  rw [jsDiv_num_of_ne (0 + a) 1 one_ne_zero, jsDiv_num_of_ne (0 + b) 1 one_ne_zero]
  simp only [jsSub_num, jsMul_num, sumJS_singleton]
  have hz1 : (0 + ((a - (0 + a) / 1) * (b - (0 + b) / 1)) : ℚ) = 0 := by norm_num
  have hz2 : (0 + ((a - (0 + a) / 1) * (a - (0 + a) / 1)) : ℚ) = 0 := by norm_num
  have hz3 : (0 + ((b - (0 + b) / 1) * (b - (0 + b) / 1)) : ℚ) = 0 := by norm_num
  have h11 : (1 - 1 : ℚ) = 0 := by norm_num
  rw [hz1, hz2, hz3, h11]
  have hdiv0 : jsDiv (JSVal.num 0) (JSVal.num 0) = JSVal.nan := by simp [jsDiv]
  simp only [hdiv0, jsMul_nan_right, jsAdd_nan_left, jsMul_num, jsAdd_num,
    jsDiv_nan_left]

/-- The function `getBlockStats` reads the second image only at the block's indices:
two data buffers agreeing on those reads give the same block value. -/
theorem getBlockStats_congr_right (d1 d2 d3 : List ℚ) (w h x y : ℕ)
    (hr : ∀ i ∈ blockIndices w h x y, d2.get? i = d3.get? i) :
    getBlockStats d1 d2 w h x y = getBlockStats d1 d3 w h x y := by
  have hp : ∀ i ∈ blockIndices w h x y, pixel d2 i = pixel d3 i := by
    intro i hi
    unfold pixel
    rw [hr i hi]
  have hmap0 : (blockIndices w h x y).map (pixel d2) =
      (blockIndices w h x y).map (pixel d3) :=
    List.map_congr_left hp
  simp only [getBlockStats]
  rw [hmap0]
  have hmap2 : ∀ m : JSVal, (blockIndices w h x y).map (fun i =>
        jsMul (jsSub (pixel d2 i) m) (jsSub (pixel d2 i) m)) =
      (blockIndices w h x y).map (fun i =>
        jsMul (jsSub (pixel d3 i) m) (jsSub (pixel d3 i) m)) :=
    fun m => List.map_congr_left fun i hi => by rw [hp i hi]
  have hmap3 : ∀ m1 m2 : JSVal, (blockIndices w h x y).map (fun i =>
        jsMul (jsSub (pixel d1 i) m1) (jsSub (pixel d2 i) m2)) =
      (blockIndices w h x y).map (fun i =>
        jsMul (jsSub (pixel d1 i) m1) (jsSub (pixel d3 i) m2)) :=
    fun m1 m2 => List.map_congr_left fun i hi => by rw [hp i hi]
  rw [hmap2, hmap3]

/-- The function `computeSSIM` takes the grid from the first image and touches the
second image's buffer only at in-grid indices: as long as the reads agree,
the second image's own dimensions and extra data are irrelevant. -/
theorem computeSSIM_congr_right (img1 img2 img3 : ImageData)
    (hr : ∀ i, i < 4 * (img1.width * img1.height) →
      img2.data.get? i = img3.data.get? i) :
    computeSSIM img1 img2 = computeSSIM img1 img3 := by
  simp only [computeSSIM]
  have hmap : ((blockStarts img1.height).flatMap fun y =>
        (blockStarts img1.width).map fun x => (x, y)).map
          (fun b => getBlockStats img1.data img2.data img1.width img1.height b.1 b.2) =
      ((blockStarts img1.height).flatMap fun y =>
        (blockStarts img1.width).map fun x => (x, y)).map
          (fun b => getBlockStats img1.data img3.data img1.width img1.height b.1 b.2) :=
    List.map_congr_left fun b _ =>
      getBlockStats_congr_right img1.data img2.data img3.data
        img1.width img1.height b.1 b.2
        (fun i hi => hr i (mem_blockIndices hi))
  rw [hmap]

/-- A 1-by-1 all-black capture (4 RGBA bytes). -/
def img11 : ImageData := ⟨1, 1, List.replicate 4 0⟩

/-- A 2-by-2 all-black capture (16 RGBA bytes). -/
def img22 : ImageData := ⟨2, 2, List.replicate 16 0⟩

/-- A 4-by-4 all-black capture (64 RGBA bytes). -/
def img44 : ImageData := ⟨4, 4, List.replicate 64 0⟩

/-- A 9-by-9 all-black capture (324 RGBA bytes): both dimensions are
`≡ 1 (mod 8)`, so the bottom-right clipped block holds a single pixel. -/
def img99 : ImageData := ⟨9, 9, List.replicate 324 0⟩

/-- An enrolled employee whose stored template is the 1-by-1 image:
scoring a 2-by-2 capture against it reads out of bounds and yields NaN. -/
def empBad : Employee := ⟨1, img11⟩

/-- An enrolled employee whose stored template equals the 2-by-2 capture. -/
def empGood : Employee := ⟨2, img22⟩

theorem computeSSIM_img22_self : computeSSIM img22 img22 = JSVal.num 1 :=
  computeSSIM_self img22 (by decide) (by decide) (by decide) (by decide)

theorem jsGe_nan_left (v : JSVal) : jsGe .nan v = false := rfl

/-- Claim C6 counterexample: roster `[empBad, empGood]` against the
2-by-2 capture.  The first template scores NaN (out-of-bounds reads), the
second scores exactly 1 ≥ 0.36 and is the unique maximal numeric score,
yet the matcher reports `no_match`: the NaN first score was installed as
`bestMatch` and `score > NaN` is false for every score. -/
theorem c6_counterexample :
    matchCapture img22 [empBad, empGood] = MatchResult.noMatch ∧
    computeSSIM img22 empGood.biometric_data = JSVal.num 1 ∧
    THRESHOLD ≤ 1 := by
  have hbad : computeSSIM img22 empBad.biometric_data = JSVal.nan := by decide
  have hgood : computeSSIM img22 empGood.biometric_data = JSVal.num 1 :=
    computeSSIM_img22_self
  refine ⟨?_, hgood, by norm_num [THRESHOLD]⟩
  simp only [matchCapture, bestMatchLoop, hbad, hgood, jsGt_nan_right,
    Bool.false_eq_true, if_false, jsGe_nan_left]

/-- Claim C6 (amended): restricted to rosters all of whose templates score
a numeric (non-NaN) value against the capture, the matcher returns MATCH
of the first roster template attaining the maximum score iff that maximum
is at least `THRESHOLD = 0.36` (`List.argmax` selects the first maximum,
matching the loop's strict-improvement rule), and otherwise NO_MATCH; the
empty roster yields NO_MATCH from the loop (with a null `bestMatch`, not a
numeric sentinel), and the surrounding `onSamplesAcquired` guard posts no
result at all for an empty roster. -/
theorem c6_matcher_contract (capture : ImageData) (roster : List Employee)
    (q : Employee → ℚ)
    (hq : ∀ emp ∈ roster, computeSSIM capture emp.biometric_data = .num (q emp)) :
    (matchCapture capture roster =
      match List.argmax q roster with
      | none => MatchResult.noMatch
      | some e => if THRESHOLD ≤ q e then .matched e (JSVal.num (q e))
                  else .noMatch) ∧
    matchCapture capture [] = .noMatch ∧
    onSamplesAcquiredAttendance capture [] = none :=
  ⟨matchCapture_argmax capture roster q hq, rfl, rfl⟩

/-- Witness for `c6_matcher_contract`: the singleton roster `[empGood]`
whose template equals the capture scores 1 and is accepted. -/
theorem c6_witness :
    matchCapture img22 [empGood] = MatchResult.matched empGood (JSVal.num 1) := by
  have hq : ∀ emp ∈ [empGood],
      computeSSIM img22 emp.biometric_data = JSVal.num ((fun _ => (1 : ℚ)) emp) := by
    intro emp hm
    rw [List.mem_singleton] at hm
    subst hm
    exact computeSSIM_img22_self
  have h := (c6_matcher_contract img22 [empGood] (fun _ => (1 : ℚ)) hq).1
  rw [h]
  have harg : List.argmax (fun _ : Employee => (1 : ℚ)) [empGood] = some empGood := rfl
  rw [harg]
  show (if THRESHOLD ≤ (1 : ℚ) then MatchResult.matched empGood (JSVal.num 1)
    else MatchResult.noMatch) = MatchResult.matched empGood (JSVal.num 1)
  rw [if_pos (by norm_num [THRESHOLD])]

/-- Claim C7 counterexample: the 2-by-2 and 4-by-4 images have different
widths and heights, yet `computeSSIM` returns the numeric score 1 for
them — there is no dimension check and no `IncompatibleImage` failure in
the code. -/
theorem c7_counterexample :
    img22.width ≠ img44.width ∧ img22.height ≠ img44.height ∧
    computeSSIM img22 img44 = JSVal.num 1 := by
  refine ⟨by decide, by decide, ?_⟩
  have hr : ∀ i, i < 4 * (img22.width * img22.height) →
      img44.data.get? i = img22.data.get? i := by decide
  rw [computeSSIM_congr_right img22 img44 img22 hr]
  exact computeSSIM_img22_self

/-- Claim C7 (amended): `computeSSIM` never consults the second image's
width or height — the result depends on the second argument only through
its pixel buffer — so mismatched dimensions cannot fail with
`IncompatibleImage`; the score is computed by indexing the second buffer
with the *first* image's geometry (out-of-range reads degrade to NaN,
in-range reads produce a numeric score, as the counterexample shows). -/
theorem c7_no_dimension_check (img1 : ImageData) (w h w2 h2 : ℕ) (d : List ℚ) :
    computeSSIM img1 ⟨w, h, d⟩ = computeSSIM img1 ⟨w2, h2, d⟩ := rfl

/-- Claim C8: the code has *no* special case for degenerate blocks.  On a
9-by-9 image the bottom-right clipped block at `(8, 8)` holds exactly one
pixel (`N = 1`), `getBlockStats` divides its zero variance accumulators by
`N - 1 = 0`, the block value is `0 / 0 = NaN`, and the NaN propagates to
the whole score. -/
theorem c8_degenerate_block_divides_by_zero :
    (blockIndices img99.width img99.height 8 8).length = 1 ∧
    getBlockStats img99.data img99.data img99.width img99.height 8 8 =
      JSVal.nan ∧
    computeSSIM img99 img99 = JSVal.nan := by
  have hidx : blockIndices img99.width img99.height 8 8 = [320] := by decide
  have hcorner := getBlockStats_single img99.data img99.data
    img99.width img99.height 8 8 320 0 0 hidx (by decide) (by decide)
  refine ⟨by decide, hcorner, ?_⟩
  simp only [computeSSIM]
  have hblocks : ((blockStarts img99.height).flatMap fun y =>
      (blockStarts img99.width).map fun x => (x, y)) =
      [(0, 0), (8, 0), (0, 8), (8, 8)] := by decide
  rw [hblocks]
  simp only [List.map_cons, List.map_nil]
  have hin : ∀ i ∈ blockIndices img99.width img99.height 0 0,
      i < img99.data.length := by
    intro i hi
    have h := mem_blockIndices hi
    have hlen : img99.data.length = 324 := by decide
    have hwh : 4 * (img99.width * img99.height) = 324 := by decide
    omega
  have hin2 : ∀ i ∈ blockIndices img99.width img99.height 8 0,
      i < img99.data.length := by
    intro i hi
    have h := mem_blockIndices hi
    have hlen : img99.data.length = 324 := by decide
    have hwh : 4 * (img99.width * img99.height) = 324 := by decide
    omega
  have hin3 : ∀ i ∈ blockIndices img99.width img99.height 0 8,
      i < img99.data.length := by
    intro i hi
    have h := mem_blockIndices hi
    have hlen : img99.data.length = 324 := by decide
    have hwh : 4 * (img99.width * img99.height) = 324 := by decide
    omega
  have hb1 : getBlockStats img99.data img99.data img99.width img99.height 0 0 =
      JSVal.num 1 :=
    getBlockStats_self img99.data img99.width img99.height 0 0 hin (by decide)
  have hb2 : getBlockStats img99.data img99.data img99.width img99.height 8 0 =
      JSVal.num 1 :=
    getBlockStats_self img99.data img99.width img99.height 8 0 hin2 (by decide)
  have hb3 : getBlockStats img99.data img99.data img99.width img99.height 0 8 =
      JSVal.num 1 :=
    getBlockStats_self img99.data img99.width img99.height 0 8 hin3 (by decide)
  rw [hb1, hb2, hb3, hcorner]
  rfl

/-- Claim C9 counterexample: the 1-by-1 image (dimensions `≡ 1 (mod 8)`,
so its only block is degenerate) scores `NaN` against itself, not ≈ 1.0:
self-similarity is *not* maximal for all image dimensions. -/
theorem c9_counterexample :
    computeSSIM img11 img11 = JSVal.nan ∧ JSVal.nan ≠ JSVal.num 1 := by
  have hidx : blockIndices img11.width img11.height 0 0 = [0] := by decide
  have hcorner := getBlockStats_single img11.data img11.data
    img11.width img11.height 0 0 0 0 0 hidx (by decide) (by decide)
  refine ⟨?_, by decide⟩
  simp only [computeSSIM]
  have hblocks : ((blockStarts img11.height).flatMap fun y =>
      (blockStarts img11.width).map fun x => (x, y)) = [(0, 0)] := by decide
  rw [hblocks]
  simp only [List.map_cons, List.map_nil]
  rw [hcorner]
  rfl

/-- Claim C9 (amended): for every image with positive dimensions whose
data buffer covers the pixel grid and whose dimensions are *not* both
`≡ 1 (mod 8)` (i.e. no degenerate single-pixel corner block),
`score(A, A)` is exactly the numeric value 1; when both dimensions are
`≡ 1 (mod 8)` the degenerate corner block makes the self-score NaN (see
the counterexample), so the claim's "including degenerate blocks" part
fails. -/
theorem c9_self_similarity (A : ImageData) (hw : 1 ≤ A.width)
    (hh : 1 ≤ A.height) (hdata : 4 * (A.width * A.height) ≤ A.data.length)
    (hdeg : ¬(A.width % 8 = 1 ∧ A.height % 8 = 1)) :
    computeSSIM A A = JSVal.num 1 :=
  computeSSIM_self A hw hh hdata hdeg

/-- Witness for `c9_self_similarity`: the 2-by-2 capture scores exactly 1
against itself. -/
theorem c9_witness : computeSSIM img22 img22 = JSVal.num 1 :=
  c9_self_similarity img22 (by decide) (by decide) (by decide) (by decide)

/-- Claim C10: the loop installs the first roster template's score as the
initial `bestMatch` unconditionally (`!bestMatch` is true).  If that score
is NaN, `score > bestMatch.score` is false for every later score, so the
first template survives the whole loop, and `NaN >= 0.36` is false, so
the matcher posts `no_match` no matter how well the remaining templates
score. -/
theorem c10_nan_first_score_forces_no_match (capture : ImageData)
    (emp0 : Employee) (rest : List Employee)
    (h : computeSSIM capture emp0.biometric_data = JSVal.nan) :
    bestMatchLoop capture (emp0 :: rest) none = some (emp0, JSVal.nan) ∧
    matchCapture capture (emp0 :: rest) = MatchResult.noMatch := by
  have h1 : bestMatchLoop capture (emp0 :: rest) none = some (emp0, JSVal.nan) := by
    simp only [bestMatchLoop, h]
    exact bestMatchLoop_nan capture rest emp0
  refine ⟨h1, ?_⟩
  unfold matchCapture
  rw [h1]
  rfl

/-- Witness for `c10_nan_first_score_forces_no_match`: the roster
`[empBad, empGood]` whose second template would score 1. -/
theorem c10_witness :
    bestMatchLoop img22 [empBad, empGood] none = some (empBad, JSVal.nan) ∧
    matchCapture img22 [empBad, empGood] = MatchResult.noMatch :=
  c10_nan_first_score_forces_no_match img22 empBad [empGood] (by decide)
